import Mathlib

/-!
Verification of the py3grads core (`gacore.py`) against its specification.

The source is shallowly embedded: the GrADS output stream is a list of lines
(each line a `List Char`, trailing line terminator included, as produced by
`readline`), raw binary reads are a list of chunks of bytes (`List Nat`),
and Python exceptions become `Option`/`Except` failures.  Numeric tokens that
the source parses with `float` are modelled as exact rationals built with
`mkRat`; `int` becomes an explicit digit parser.  Fields of the environment
snapshot that no claim mentions (world coordinates, parsed timestamps) are
not stored, but the parser still demands the corresponding tokens so that
parse failures occur where the source raises.
-/

/-- Boolean substring test on lists: does `pat` occur contiguously in the
second list?  Models Python's `in` operator on `str`/`bytes`. -/
def containsSeq {α : Type} [BEq α] (pat : List α) : List α → Bool
  | [] => pat.isEmpty
  | b :: rest => pat.isPrefixOf (b :: rest) || containsSeq pat rest

/-- Whitespace test used by Python's `str.split()` (no arguments). -/
def isWsChar (c : Char) : Bool :=
  c = ' ' || c = '\n' || c = '\t' || c = '\r'

/-- Helper for `splitWs`: `acc` is the current in-progress word, reversed. -/
def splitWsAux : List Char → List Char → List (List Char)
  | [], acc => if acc.isEmpty then [] else [acc.reverse]
  | c :: rest, acc =>
    if isWsChar c then
      if acc.isEmpty then splitWsAux rest []
      else acc.reverse :: splitWsAux rest []
    else splitWsAux rest (c :: acc)

/-- Python `str.split()`: split on runs of whitespace, dropping empty words. -/
def splitWs (l : List Char) : List (List Char) := splitWsAux l []

/-- Digit-string parser: `some n` when the list is a nonempty run of ASCII
digits.  Helper for the `int`/`float` token parsers. -/
def parseNatDigits (l : List Char) : Option Nat :=
  match l with
  | [] => none
  | _ =>
    l.foldl (fun acc c =>
      acc.bind (fun n =>
        if '0' ≤ c ∧ c ≤ '9' then some (n * 10 + (c.toNat - '0'.toNat)) else none))
      (some 0)

/-- Python `int(token)` on a whitespace-free token: optional sign, digits. -/
def parseInt (l : List Char) : Option Int :=
  match l with
  | '-' :: rest => (parseNatDigits rest).map (fun n => -(n : Int))
  | '+' :: rest => (parseNatDigits rest).map (fun n => (n : Int))
  | _ => (parseNatDigits l).map (fun n => (n : Int))

/-- Unsigned decimal-number parser: digits with an optional fractional part
(`"12"`, `"12.5"`, `".5"`, `"12."`).  The value is returned as an exact
rational.  Exponent forms accepted by Python `float` are not modelled; no
claim depends on them. -/
def parseDecCore (l : List Char) : Option ℚ :=
  match l.splitOn '.' with
  | [ip] => (parseNatDigits ip).map (fun n => ((n : Int) : ℚ))
  | [ip, fp] =>
    if ip.isEmpty then
      (parseNatDigits fp).map (fun f => mkRat (f : Int) (10 ^ fp.length))
    else if fp.isEmpty then
      (parseNatDigits ip).map (fun n => ((n : Int) : ℚ))
    else
      (parseNatDigits ip).bind (fun n =>
        (parseNatDigits fp).map (fun f =>
          mkRat ((n : Int) * 10 ^ fp.length + (f : Int)) (10 ^ fp.length)))
  | _ => none

/-- Python `float(token)` on a whitespace-free token, as an exact rational. -/
def parseRat (l : List Char) : Option ℚ :=
  match l with
  | '-' :: rest => (parseDecCore rest).map (fun q => -q)
  | '+' :: rest => parseDecCore rest
  | _ => parseDecCore l

/-- `numpy.round` applied to an exact rational: round half to even.  Written
without rational arithmetic so that it evaluates by kernel reduction:
`q + 1/2` is `(2*num + den) / (2*den)`. -/
def roundHalfEven (q : ℚ) : Int :=
  if q.den = 1 then q.num
  else if q.den = 2 then
    (if Int.floor q % 2 = 0 then Int.floor q else Int.floor q + 1)
  else Int.floor (mkRat (2 * q.num + (q.den : Int)) (2 * q.den))

/-- The frame marker name: `_parse_output`'s default `marker='IPC'`. -/
def ipcMarker : List Char := "IPC".toList

/-- Opening tag `'<'+marker+'>'` (`gacore.py` line 94). -/
def markstart : List Char := "<IPC>".toList

/-- Closing tag `'</'+marker+'>'` (`gacore.py` line 95). -/
def markend : List Char := "</IPC>".toList

/-- The return-code tag `'<RC>'` (`gacore.py` line 110). -/
def rcTag : List Char := "<RC>".toList

/-- First phase of `Grads._parse_output` (lines 101-104): discard lines until
one contains the opening tag; that line is consumed too.  `none` models the
`GrADSError("GrADS terminated.")` raised when the stream ends first. -/
def findFrameStart : List (List Char) → Option (List (List Char))
  | [] => none
  | l :: rest => if containsSeq markstart l then some rest else findFrameStart rest

/-- Second phase of `Grads._parse_output` (lines 106-122): collect lines until
one contains the closing tag.  A line containing `<RC>` updates the return
code with `int(line.split()[1])` and is not collected; any other line is
collected with its last character dropped (`out[:-1]`).  `none` models stream
exhaustion or an `int` parse failure. -/
def collectFrame : List (List Char) → List (List Char) → Int →
    Option (List (List Char) × Int)
  | [], _, _ => none
  | out :: rest, acc, rc =>
    if containsSeq markend out then some (acc.reverse, rc)
    else if containsSeq rcTag out then
      match ((splitWs out).get? 1).bind parseInt with
      | none => none
      | some n => collectFrame rest acc n
    else collectFrame rest (out.dropLast :: acc) rc

/-- `Grads._parse_output` (lines 82-122) over a stream of lines: returns the
collected lines and the return code, `rc = -1` until a `<RC>` line is seen. -/
def parse_output (stream : List (List Char)) : Option (List (List Char) × Int) :=
  (findFrameStart stream).bind (fun rest => collectFrame rest [] (-1))

/-- Failure conditions of the session layer.  `indexFailure` models the
Python `IndexError` raised by `gacmd[-1]` on an empty command;
`streamClosed` the `GrADSError("GrADS terminated.")`; `syntaxError` the
`GrADSError('Syntax Error while evaluating '+gacmd)`; `closeFailure` an
error while closing a pipe during teardown. -/
inductive GaError where
  | indexFailure
  | streamClosed
  | syntaxError (gacmd : List Char)
  | closeFailure
deriving DecidableEq

/-- The literal `'Syntax Error'` tested by `Grads.cmd` (line 166). -/
def syntaxErrorText : List Char := "Syntax Error".toList

/-- Result of one `Grads.cmd` call: the outcome (response lines and return
code, or a raised error) plus the bytes actually written to the GrADS
input stream (`none` when the write was never reached). -/
structure CmdResult where
  outcome : Except GaError (List (List Char) × Int)
  written : Option (List Char)

/-- `Grads.cmd` (lines 141-172).  `stream` is the pending GrADS output.
Line 154 reads `gacmd[-1]`, raising `IndexError` on an empty command before
anything is written; line 155 appends `'\n'` when absent; lines 159-167
collect a frame when `block` is true and raise on `'Syntax Error'` in the
joined output regardless of the return code; lines 168-170 return
`([], 0)` without touching the output stream when `block` is false. -/
def cmd (gacmd : List Char) (stream : List (List Char)) (block : Bool) : CmdResult :=
  match gacmd.getLast? with
  | none => ⟨.error .indexFailure, none⟩
  | some c =>
    let w := if c = '\n' then gacmd else gacmd ++ ['\n']
    if block then
      match parse_output stream with
      | none => ⟨.error .streamClosed, some w⟩
      | some (outlines, rc) =>
        if containsSeq syntaxErrorText (List.intercalate ['\n'] outlines) then
          ⟨.error (.syntaxError w), some w⟩
        else ⟨.ok (outlines, rc), some w⟩
    else ⟨.ok ([], 0), some w⟩

/-- The `'quit'` command sent by `Grads.__del__`. -/
def quitCmd : List Char := "quit".toList

/-- The body of `Grads.__del__`'s `try` block (lines 76-78): run
`cmd('quit')` against whatever output is still pending, then close the two
pipes; `stdinCloseFails`/`stdoutCloseFails` model the closes raising. -/
def delAttempt (stream : List (List Char)) (stdinCloseFails stdoutCloseFails : Bool) :
    Except GaError Unit :=
  match (cmd quitCmd stream true).outcome with
  | .error e => .error e
  | .ok _ =>
    if stdinCloseFails then .error .closeFailure
    else if stdoutCloseFails then .error .closeFailure
    else .ok ()

/-- `Grads.__del__` (lines 71-80): the whole teardown is wrapped in
`try: ... except: pass`, so every failure is swallowed. -/
def del (stream : List (List Char)) (stdinCloseFails stdoutCloseFails : Bool) :
    Except GaError Unit :=
  match delAttempt stream stdinCloseFails stdoutCloseFails with
  | .ok _ => .ok ()
  | .error _ => .ok ()

/-- The terminator byte sequence `b'\n<RC>'` searched for by `Grads.exp`
(line 222): bytes 10, 60 `<`, 82 `R`, 67 `C`, 62 `>`. -/
def rcTermBytes : List Nat := [10, 60, 82, 67, 62]

/-- `chunk.split(pat)[0]`: the bytes of `chunk` preceding the first
occurrence of `pat` (the whole chunk when `pat` does not occur). -/
def takeUntilSeq {α : Type} [BEq α] (pat : List α) : List α → List α
  | [] => []
  | b :: rest =>
    if pat.isPrefixOf (b :: rest) then [] else b :: takeUntilSeq pat rest

/-- The raw-payload reading loop of `Grads.exp` (lines 215-232): the stream
is modelled as the list of chunks successive `stdout.read(4096)` calls
return.  Each chunk is tested on its own for `b'\n<RC>'`; on a hit the bytes
before the first in-chunk occurrence are appended and reading stops,
otherwise the whole chunk is appended.  `none` models the loop never
terminating (it blocks on further reads). -/
def readRawUntilRCMarker : List (List Nat) → Option (List Nat)
  | [] => none
  | ch :: rest =>
    if containsSeq rcTermBytes ch then some (takeUntilSeq rcTermBytes ch)
    else (readRawUntilRCMarker rest).map (fun tl => ch ++ tl)

/-- One axis of the dimension environment as `GaEnv.__init__` stores it:
either fixed, with the grid coordinate and its rounded integer index, or
varying, with the low/high grid coordinates and the floored/ceiled integer
index range (`gacore.py` lines 296-339).  World coordinates and timestamps
are parsed but not stored (no claim mentions them). -/
inductive AxisDim where
  | fixed (coord : ℚ) (idx : Int)
  | varying (lo hi : ℚ) (loIdx hiIdx : Int)
deriving DecidableEq

/-- Axis length as computed in `gacore.py` lines 341-362: 1 when fixed,
`hiIdx - loIdx + 1` when varying. -/
def AxisDim.length : AxisDim → Int
  | .fixed _ _ => 1
  | .varying _ _ li hj => hj - li + 1

/-- The stored `fixed` flag (`'fixed' in qdims[i]` at lines 284-288); by
construction of the parser it coincides with the constructor used. -/
def AxisDim.isFixedAxis : AxisDim → Bool
  | .fixed _ _ => true
  | .varying _ _ _ _ => false

/-- The literal `'fixed'` tested against each dimension line. -/
def fixedText : List Char := "fixed".toList

/-- Word `i` of a line, as `line.split()[i]` (`none` for `IndexError`). -/
def getTok (l : List Char) (i : Nat) : Option (List Char) := (splitWs l).get? i

/-- Axis parser for the x, y and z lines of `query dims` output
(`gacore.py` lines 296-322).  Fixed: world coordinate at word 5, grid
coordinate at word 8, index `np.round` of it.  Varying: world coordinates at
words 5 and 7, grid coordinates at words 10 and 12, index range
`(floor(low), ceil(high))`.  The world-coordinate tokens must parse as
numbers (the source calls `float` on them) but their values are dropped. -/
def parseAxisWorld (l : List Char) : Option AxisDim :=
  if containsSeq fixedText l then
    ((getTok l 5).bind parseRat).bind (fun _ =>
      ((getTok l 8).bind parseRat).map (fun c => .fixed c (roundHalfEven c)))
  else
    ((getTok l 5).bind parseRat).bind (fun _ =>
      ((getTok l 7).bind parseRat).bind (fun _ =>
        ((getTok l 10).bind parseRat).bind (fun lo =>
          ((getTok l 12).bind parseRat).map (fun hi =>
            .varying lo hi (Int.floor lo) (Int.ceil hi)))))

/-- Axis parser for the t line (`gacore.py` lines 323-332): words 5 and 7
are timestamps parsed with `datetime.strptime`; the model only requires the
tokens to be present (the timestamp grammar is not embedded; no claim
mentions parsed times). -/
def parseAxisTime (l : List Char) : Option AxisDim :=
  if containsSeq fixedText l then
    (getTok l 5).bind (fun _ =>
      ((getTok l 8).bind parseRat).map (fun c => .fixed c (roundHalfEven c)))
  else
    (getTok l 5).bind (fun _ =>
      (getTok l 7).bind (fun _ =>
        ((getTok l 10).bind parseRat).bind (fun lo =>
          ((getTok l 12).bind parseRat).map (fun hi =>
            .varying lo hi (Int.floor lo) (Int.ceil hi)))))

/-- Axis parser for the e line (`gacore.py` lines 333-339): only grid
coordinates, no world coordinate. -/
def parseAxisEns (l : List Char) : Option AxisDim :=
  if containsSeq fixedText l then
    ((getTok l 8).bind parseRat).map (fun c => .fixed c (roundHalfEven c))
  else
    ((getTok l 10).bind parseRat).bind (fun lo =>
      ((getTok l 12).bind parseRat).map (fun hi =>
        .varying lo hi (Int.floor lo) (Int.ceil hi)))

/-- The dimension part of a `GaEnv` snapshot (`query dims`). -/
structure GaEnvDims where
  fid : Int
  x : AxisDim
  y : AxisDim
  z : AxisDim
  t : AxisDim
  e : AxisDim
deriving DecidableEq

/-- The `query dims` branch of `GaEnv.__init__` (lines 276-366): line 0
carries the open file id as its last word; lines 1-5 describe the x, y, z,
t and e axes. -/
def parseDims (qdims : List (List Char)) : Option GaEnvDims :=
  (qdims.get? 0).bind (fun l0 =>
    ((splitWs l0).getLast?.bind parseInt).bind (fun fid =>
      ((qdims.get? 1).bind parseAxisWorld).bind (fun ax =>
        ((qdims.get? 2).bind parseAxisWorld).bind (fun ay =>
          ((qdims.get? 3).bind parseAxisWorld).bind (fun az =>
            ((qdims.get? 4).bind parseAxisTime).bind (fun a4 =>
              ((qdims.get? 5).bind parseAxisEns).map (fun a5 =>
                ⟨fid, ax, ay, az, a4, a5⟩)))))))

/-- `self.xfixed` (line 284). -/
def GaEnvDims.xfixed (env : GaEnvDims) : Bool := env.x.isFixedAxis

/-- `self.yfixed` (line 285). -/
def GaEnvDims.yfixed (env : GaEnvDims) : Bool := env.y.isFixedAxis

/-- `self.zfixed` (line 286). -/
def GaEnvDims.zfixed (env : GaEnvDims) : Bool := env.z.isFixedAxis

/-- `self.tfixed` (line 287). -/
def GaEnvDims.tfixed (env : GaEnvDims) : Bool := env.t.isFixedAxis

/-- `self.efixed` (line 288). -/
def GaEnvDims.efixed (env : GaEnvDims) : Bool := env.e.isFixedAxis

/-- `self.nx` (lines 343-346). -/
def GaEnvDims.nx (env : GaEnvDims) : Int := env.x.length

/-- `self.ny` (lines 347-350). -/
def GaEnvDims.ny (env : GaEnvDims) : Int := env.y.length

/-- `self.rank` (lines 364-366): `sum([not d for d in [xfixed, yfixed,
zfixed, tfixed, efixed]])`. -/
def GaEnvDims.rank (env : GaEnvDims) : Nat :=
  (([env.xfixed, env.yfixed, env.zfixed, env.tfixed, env.efixed]).map
    (fun d => if d then 0 else 1)).sum

/-- The `query ctlinfo` part of a snapshot (`gacore.py` lines 368-386):
total axis lengths declared in the open file descriptor.  `Nx`..`Nt` are
`none` until a matching line sets them (reading an unset Python attribute
raises); `Ne` is initialised to 1. -/
structure CtlEnv where
  bigNx : Option Int
  bigNy : Option Int
  bigNz : Option Int
  bigNt : Option Int
  bigNe : Int
deriving DecidableEq

/-- Keyword tested for the x axis: lowercase, with a trailing space. -/
def xdefLower : List Char := "xdef ".toList

/-- Keyword tested for the x axis: uppercase, with a trailing space. -/
def xdefUpper : List Char := "XDEF ".toList

/-- Keyword tested for the y axis, lowercase. -/
def ydefLower : List Char := "ydef ".toList

/-- Keyword tested for the y axis, uppercase. -/
def ydefUpper : List Char := "YDEF ".toList

/-- Keyword tested for the z axis, lowercase. -/
def zdefLower : List Char := "zdef ".toList

/-- Keyword tested for the z axis, uppercase. -/
def zdefUpper : List Char := "ZDEF ".toList

/-- Keyword tested for the t axis, lowercase. -/
def tdefLower : List Char := "tdef ".toList

/-- Keyword tested for the t axis, uppercase. -/
def tdefUpper : List Char := "TDEF ".toList

/-- Keyword tested for the e axis, lowercase. -/
def edefLower : List Char := "edef ".toList

/-- Keyword tested for the e axis, uppercase. -/
def edefUpper : List Char := "EDEF ".toList

/-- The loop body of the ctlinfo scan (`gacore.py` lines 375-386): one line,
threading the state.  Exactly the source's `elif` chain: the first matching
branch parses `int(line.split()[1])` (`none` on failure) and overwrites the
corresponding field. -/
def ctlStep (st : CtlEnv) (l : List Char) : Option CtlEnv :=
  if containsSeq xdefLower l || containsSeq xdefUpper l then
    (((splitWs l).get? 1).bind parseInt).map (fun n => { st with bigNx := some n })
  else if containsSeq ydefLower l || containsSeq ydefUpper l then
    (((splitWs l).get? 1).bind parseInt).map (fun n => { st with bigNy := some n })
  else if containsSeq zdefLower l || containsSeq zdefUpper l then
    (((splitWs l).get? 1).bind parseInt).map (fun n => { st with bigNz := some n })
  else if containsSeq tdefLower l || containsSeq tdefUpper l then
    (((splitWs l).get? 1).bind parseInt).map (fun n => { st with bigNt := some n })
  else if containsSeq edefLower l || containsSeq edefUpper l then
    (((splitWs l).get? 1).bind parseInt).map (fun n => { st with bigNe := n })
  else some st

/-- The ctlinfo scan over a list of lines, from a given state. -/
def ctlScan : List (List Char) → CtlEnv → Option CtlEnv
  | [], st => some st
  | l :: rest, st => (ctlStep st l).bind (fun st2 => ctlScan rest st2)

/-- The `query ctlinfo` branch of `GaEnv.__init__` (lines 368-386): start
from `Ne = 1` and everything else unset, scan every line. -/
def parseCtl (qctl : List (List Char)) : Option CtlEnv :=
  ctlScan qctl ⟨none, none, none, none, 1⟩

/-- The `graphicTypes` table of `GaEnv.__init__` (lines 397-403), mapping
`query gxout` identifiers to gxout command names; `'0'` maps to `None`
("no mode set"). -/
def graphicTypes : List (List Char × Option (List Char)) :=
  [("Contour".toList, some ("contour".toList)),
   ("Line".toList, some ("line".toList)),
   ("Barb".toList, some ("barb".toList)),
   ("16".toList, some ("shaded".toList)),
   ("17".toList, some ("shade2b".toList)),
   ("Shaded".toList, some ("shade1".toList)),
   ("Vector".toList, some ("vector".toList)),
   ("Shapefile".toList, some ("shp".toList)),
   ("Bar".toList, some ("bar".toList)),
   ("Grid".toList, some ("grid".toList)),
   ("Grfill".toList, some ("grfill".toList)),
   ("Stream".toList, some ("stream".toList)),
   ("Errbar".toList, some ("errbar".toList)),
   ("GeoTIFF".toList, some ("geotiff".toList)),
   ("Fgrid".toList, some ("fgrid".toList)),
   ("ImageMap".toList, some ("imap".toList)),
   ("KML".toList, some ("kml".toList)),
   ("Linefill".toList, some ("linefill".toList)),
   ("Scatter".toList, some ("scatter".toList)),
   ("Fwrite".toList, some ("fwrite".toList)),
   ("0".toList, none)]

/-- Dictionary access `graphicTypes[token]`: `none` models the `KeyError`
raised on a token absent from the table. -/
def lookupGraphicType (tok : List Char) : Option (Option (List Char)) :=
  graphicTypes.lookup tok

/-- The display part of a snapshot (`query gxout`, lines 388-414). -/
structure GxoutEnv where
  gx1Dscalar : Option (List Char)
  gx1Dvector : Option (List Char)
  gx2Dscalar : Option (List Char)
  gx2Dvector : Option (List Char)
  stationData : Option (List Char)
deriving DecidableEq

/-- The `query gxout` branch of `GaEnv.__init__` (lines 405-414): the last
word of lines 1-4 goes through `graphicTypes` (unknown tokens raise); the
last word of line 5 is compared against the literal `'6'` and otherwise
stored verbatim, without consulting the table. -/
def parseGxout (qgxout : List (List Char)) : Option GxoutEnv :=
  ((qgxout.get? 1).bind (fun l => (splitWs l).getLast?)).bind (fun t1 =>
    (lookupGraphicType t1).bind (fun g1 =>
      ((qgxout.get? 2).bind (fun l => (splitWs l).getLast?)).bind (fun t2 =>
        (lookupGraphicType t2).bind (fun g2 =>
          ((qgxout.get? 3).bind (fun l => (splitWs l).getLast?)).bind (fun t3 =>
            (lookupGraphicType t3).bind (fun g3 =>
              ((qgxout.get? 4).bind (fun l => (splitWs l).getLast?)).bind (fun t4 =>
                (lookupGraphicType t4).bind (fun g4 =>
                  ((qgxout.get? 5).bind (fun l => (splitWs l).getLast?)).map (fun sd =>
                    ⟨g1, g2, g3, g4, if sd = "6".toList then none else some sd⟩)))))))))

/-- `range(-2, 3)` as iterated by the shape-guessing loop of `Grads.exp`. -/
def perturbOffsets : List Int := [-2, -1, 0, 1, 2]

/-- The `possible_sizes` list built by `Grads.exp` (lines 238-245): for
`dim = 'x'` then `dim = 'y'`, and each offset in `range(-2, 3)`, the pair
`((nx, ny), nx*ny)` with the offset applied to that one axis. -/
def possible_sizes (nx ny : Int) : List ((Int × Int) × Int) :=
  (perturbOffsets.map (fun di => ((nx + di, ny), (nx + di) * ny))) ++
    (perturbOffsets.map (fun di => ((nx, ny + di), nx * (ny + di))))

/-- Shape resolution in `Grads.exp` (lines 246-255): `assert arr.size in
sizes` (`none` models the `PygradsError` raised when it fails), then
`dims[sizes.index(arr.size)]` — the shape paired with the first matching
size in the candidate list. -/
def resolveShape (nx ny count : Int) : Option (Int × Int) :=
  ((possible_sizes nx ny).find? (fun p => p.2 == count)).map (fun p => p.1)

/-- Outcome of `Grads.exp`: the `PygradsError` for an unsupported
environment (line 205), the raw read loop hanging forever (no terminator
chunk), the `PygradsError` from shape resolution (line 252), or success
with the resolved shape used by `arr.reshape((ny, nx))`. -/
inductive ExpOutcome where
  | unsupportedShape
  | streamHang
  | exportFailed
  | ok (nx ny : Int)
deriving DecidableEq

/-- `'set gxout fwrite'` (line 207). -/
def setGxoutFwriteCmd : List Char := "set gxout fwrite".toList

/-- `'set fwrite -st -'` (line 208). -/
def setFwriteCmd : List Char := "set fwrite -st -".toList

/-- `'display '+expr` (line 210). -/
def displayCmd (expr : List Char) : List Char := "display ".toList ++ expr

/-- `'q config'` issued by `Grads.flush` (line 182). -/
def qConfigCmd : List Char := "q config".toList

/-- `'disable fwrite'` (line 257). -/
def disableFwriteCmd : List Char := "disable fwrite".toList

/-- `'set gxout '+env.gx2Dscalar` (line 259). -/
def setGxoutRestoreCmd (g : List Char) : List Char := "set gxout ".toList ++ g

/-- `Grads.exp` (lines 194-262) after the environment snapshot has been
taken (`self.env()` itself issues the three query commands; they precede
the gate and are not part of the trace here).  Returns the outcome and the
list of commands written to GrADS after the gate: nothing when the gate
fails; the two fwrite-mode commands and the display command, then `flush`'s
`'q config'` once the raw payload terminator was found; and finally
`'disable fwrite'` plus the gxout restore command only when shape
resolution succeeds.  The payload is interpreted as 32-bit floats: its
element count is `length / 4` and a length not divisible by 4 makes
`np.fromstring` raise, landing in the same `PygradsError` as a failed
size assertion. -/
def exp (expr : List Char) (env : GaEnvDims) (gx2D : List Char)
    (chunks : List (List Nat)) : ExpOutcome × List (List Char) :=
  if (env.xfixed || env.yfixed) || !(env.rank == 2) then (.unsupportedShape, [])
  else
    match readRawUntilRCMarker chunks with
    | none => (.streamHang, [setGxoutFwriteCmd, setFwriteCmd, displayCmd expr])
    | some payload =>
      let pre := [setGxoutFwriteCmd, setFwriteCmd, displayCmd expr, qConfigCmd]
      if payload.length % 4 == 0 then
        match resolveShape env.nx env.ny ((payload.length / 4 : Nat) : Int) with
        | some (rnx, rny) =>
          (.ok rnx rny, pre ++ [disableFwriteCmd, setGxoutRestoreCmd gx2D])
        | none => (.exportFailed, pre)
      else (.exportFailed, pre)

/-- Claim C9 (confirmed): session teardown is best-effort and total — it
attempts `cmd('quit')` and the two pipe closes, and every failure raised
inside the attempt, including the stream-closed failure seen when the GrADS
process already exited (the empty-stream case, second conjunct), is
swallowed, so `__del__` never raises in any session state. -/
theorem c9_teardown_total (stream : List (List Char)) (f1 f2 : Bool) :
    del stream f1 f2 = Except.ok () ∧
      (delAttempt [] f1 f2 = Except.error GaError.streamClosed ∧
        del [] f1 f2 = Except.ok ()) := by
  refine ⟨?_, rfl, rfl⟩
  unfold del
  cases delAttempt stream f1 f2 <;> rfl

/-- Claim C10 (confirmed): for a non-empty command the terminator-append
step is total — the bytes written are the command itself when it already
ends in a line terminator and the command plus `'\n'` otherwise, so they
always end in a line terminator; for the empty command the call fails on
the `gacmd[-1]` check and nothing is written. -/
theorem c10_terminator_append (gacmd : List Char) (stream : List (List Char))
    (block : Bool) (c : Char) (hlast : gacmd.getLast? = some c) :
    (cmd gacmd stream block).written =
        some (if c = '\n' then gacmd else gacmd ++ ['\n']) ∧
      (∀ w, (cmd gacmd stream block).written = some w → w.getLast? = some '\n') ∧
      (cmd [] stream block).written = none ∧
      (cmd [] stream block).outcome = Except.error GaError.indexFailure := by
  have hkey : (cmd gacmd stream block).written =
      some (if c = '\n' then gacmd else gacmd ++ ['\n']) := by
    simp only [cmd, hlast]
    cases block with
    | false => rfl
    | true =>
      cases hp : parse_output stream with
      | none => simp [hp]
      | some pr =>
        rcases pr with ⟨outlines, rc⟩
        by_cases hse :
            containsSeq syntaxErrorText (List.intercalate ['\n'] outlines) = true
        · simp [hp, hse]
        · simp [hp, hse]
  refine ⟨hkey, ?_, rfl, rfl⟩
  intro w hw
  rw [hkey] at hw
  have hw2 : w = if c = '\n' then gacmd else gacmd ++ ['\n'] := by
    exact (Option.some_inj.mp hw).symm
  subst hw2
  by_cases hc : c = '\n'
  · subst hc
    rw [if_pos rfl]
    exact hlast
  · rw [if_neg hc]
    exact List.getLast?_concat _

/-- Witness for C10 at the concrete command `['q']` with empty pending
output and non-blocking mode. -/
theorem c10_witness :
    (cmd ['q'] [] false).written =
        some (if 'q' = '\n' then ['q'] else ['q'] ++ ['\n']) ∧
      (∀ w, (cmd ['q'] [] false).written = some w → w.getLast? = some '\n') ∧
      (cmd [] [] false).written = none ∧
      (cmd [] [] false).outcome = Except.error GaError.indexFailure :=
  c10_terminator_append ['q'] [] false 'q' (by decide)

/-- Claim C6 (confirmed): when a blocking command's collected lines, joined
with `'\n'`, contain the literal `'Syntax Error'`, `cmd` raises the
syntax-error failure naming the (terminator-completed) command — for every
return code `rc`, including 0 and -1. -/
theorem c6_syntax_error_overrides_rc (gacmd : List Char)
    (stream outlines : List (List Char)) (rc : Int) (c : Char)
    (hlast : gacmd.getLast? = some c)
    (hp : parse_output stream = some (outlines, rc))
    (hse : containsSeq syntaxErrorText (List.intercalate ['\n'] outlines) = true) :
    (cmd gacmd stream true).outcome =
      Except.error (GaError.syntaxError
        (if c = '\n' then gacmd else gacmd ++ ['\n'])) := by
  simp [cmd, hlast, hp, hse]

/-- Witness for C6: a frame carrying a `Syntax Error` line together with
return code 0 still raises the syntax-error failure. -/
theorem c6_witness :
    (cmd ['q'] ["<IPC>\n".toList, "Syntax Error\n".toList, "<RC> 0\n".toList,
        "</IPC>\n".toList] true).outcome =
      Except.error (GaError.syntaxError
        (if 'q' = '\n' then ['q'] else ['q'] ++ ['\n'])) :=
  c6_syntax_error_overrides_rc ['q'] _ ["Syntax Error".toList] 0 'q'
    (by decide) (by decide) (by decide)

/-- Claim C1 (corrected): the raw-payload reader scans each chunk on its
own.  It terminates at the first chunk that wholly contains the byte
sequence "line terminator + `<RC>`", returning the bytes of the earlier
chunks followed by that chunk's bytes preceding its first occurrence of the
sequence; over chunks containing no whole occurrence — in particular
chunks holding a bare `<RC>` with no preceding line terminator — it keeps
accumulating and never terminates. -/
theorem c1_per_chunk_terminator (pre : List (List Nat)) (c : List Nat)
    (post : List (List Nat))
    (hpre : ∀ x ∈ pre, containsSeq rcTermBytes x = false)
    (hc : containsSeq rcTermBytes c = true) :
    readRawUntilRCMarker (pre ++ c :: post) =
        some (pre.flatten ++ takeUntilSeq rcTermBytes c) ∧
      readRawUntilRCMarker pre = none := by
  induction pre with
  | nil => simp [readRawUntilRCMarker, hc]
  | cons hd tl ih =>
    have hhd : containsSeq rcTermBytes hd = false := hpre hd (by simp)
    obtain ⟨ih1, ih2⟩ := ih (fun x hx => hpre x (by simp [hx]))
    constructor
    · simp [readRawUntilRCMarker, hhd, ih1]
    · simp [readRawUntilRCMarker, hhd, ih2]

/-- Witness for C1 (amended form): a first chunk holding a bare `<RC>`
(bytes 60, 82, 67, 62) with no preceding newline is accumulated as payload,
and the terminator inside the second chunk stops the read right before it. -/
theorem c1_witness :
    readRawUntilRCMarker ([[60, 82, 67, 62, 1]] ++ [1, 2, 10, 60, 82, 67, 62, 3] :: []) =
        some ([[60, 82, 67, 62, 1]].flatten ++
          takeUntilSeq rcTermBytes [1, 2, 10, 60, 82, 67, 62, 3]) ∧
      readRawUntilRCMarker [[60, 82, 67, 62, 1]] = none :=
  c1_per_chunk_terminator [[60, 82, 67, 62, 1]] [1, 2, 10, 60, 82, 67, 62, 3] []
    (by decide) (by decide)

/-- Counterexample for C1 as stated: the terminator sequence 10 60 82 67 62
(`\n<RC>`) does occur in the byte stream, but it straddles the boundary of
the two chunk reads, so the reader never finds it: it accumulates both
chunks and keeps reading instead of terminating at the occurrence. -/
theorem c1_straddled_terminator_missed :
    containsSeq rcTermBytes (List.flatten [[10, 60, 82], [67, 62]]) = true ∧
      readRawUntilRCMarker [[10, 60, 82], [67, 62]] = none := by decide

/-- A candidate obtained by a nonzero perturbation of the x axis has an
element count different from the nominal one whenever `ny` is nonzero. -/
lemma perturb_count_ne (nx ny di : Int) (hdi : di ≠ 0) (hny : ny ≠ 0) :
    (nx + di) * ny ≠ nx * ny := by
  intro h
  rw [add_mul] at h
  have h2 : di * ny = 0 := by linarith
  rcases mul_eq_zero.mp h2 with h3 | h3
  · exact hdi h3
  · exact hny h3

/-- Claim C3 (corrected): with a nonzero nominal `ny`, shape resolution
returns the nominal `(nx, ny)` whenever the element count equals `nx*ny`;
it fails (the `ExportFailed` condition) exactly when no candidate count
matches; and any shape it returns is a candidate whose count equals the
payload's element count — the first such in the fixed search order (x
offsets -2..2, then y offsets -2..2), not the nearest one. -/
theorem c3_shape_resolution (nx ny count : Int) (hny : ny ≠ 0) :
    (count = nx * ny → resolveShape nx ny count = some (nx, ny)) ∧
      (resolveShape nx ny count = none ↔
        ∀ p ∈ possible_sizes nx ny, p.2 ≠ count) ∧
      (∀ d, resolveShape nx ny count = some d →
        ∃ p ∈ possible_sizes nx ny, p.1 = d ∧ p.2 = count) := by
  refine ⟨?_, ?_, ?_⟩
  · intro hc
    subst hc
    have e1 : ((nx + (-2)) * ny == nx * ny) = false :=
      beq_eq_false_iff_ne.mpr (perturb_count_ne nx ny (-2) (by decide) hny)
    have e2 : ((nx + (-1)) * ny == nx * ny) = false :=
      beq_eq_false_iff_ne.mpr (perturb_count_ne nx ny (-1) (by decide) hny)
    have e3 : ((nx + 0) * ny == nx * ny) = true := by simp
    simp [resolveShape, possible_sizes, perturbOffsets, List.find?, e1, e2, e3]
  · simp only [resolveShape, Option.map_eq_none', List.find?_eq_none, beq_iff_eq]
  · intro d hd
    rcases Option.map_eq_some'.mp hd with ⟨p, hp, rfl⟩
    refine ⟨p, List.mem_of_find?_eq_some hp, rfl, ?_⟩
    have hps := List.find?_some hp
    exact beq_iff_eq.mp hps

/-- Witness for C3 (amended form) at the nominal shape (3, 2) and a payload
of 6 elements. -/
theorem c3_witness :
    ((6 : Int) = 3 * 2 → resolveShape 3 2 6 = some (3, 2)) ∧
      (resolveShape 3 2 6 = none ↔ ∀ p ∈ possible_sizes 3 2, p.2 ≠ 6) ∧
      (∀ d, resolveShape 3 2 6 = some d →
        ∃ p ∈ possible_sizes 3 2, p.1 = d ∧ p.2 = 6) :=
  c3_shape_resolution 3 2 6 (by decide)

/-- Counterexample for C3 as stated.  First conjunct: with nominal shape
(4, 2) and element count 4, the resolver returns (2, 2) — the x axis
perturbed by -2 — although the candidate (4, 1), only 1 away on the y axis,
also has count 4 (second conjunct): the fallback is first-in-search-order,
not nearest.  Third conjunct: with nominal (5, 0) and count 0 = 5*0 the
nominal count matches exactly, yet the resolver returns (3, 0), not the
nominal shape. -/
theorem c3_not_nearest_not_nominal :
    resolveShape 4 2 4 = some (2, 2) ∧
      ((4, 1), (4 : Int) * 1) ∈ possible_sizes 4 2 ∧ (4 : Int) * 1 = 4 ∧
      resolveShape 5 0 0 = some (3, 0) := by decide

/-- Summing `not d` over a list of flags counts the `false` entries. -/
lemma sum_map_not_eq_countP (l : List Bool) :
    (l.map (fun d => if d then 0 else 1)).sum = l.countP (fun d => !d) := by
  induction l with
  | nil => rfl
  | cons b tl ih =>
    cases b <;> simp [List.countP_cons, ih, Nat.add_comm]

/-- The unsupported-environment gate of `Grads.exp`, spelled as a Prop. -/
lemma exp_gate_iff (env : GaEnvDims) :
    ((env.xfixed || env.yfixed) || !(env.rank == 2)) = true ↔
      (env.xfixed = true ∨ env.yfixed = true ∨ env.rank ≠ 2) := by
  simp [Bool.or_eq_true, Bool.not_eq_eq_eq_not, or_assoc]

/-- When the gate fires, `exp` raises immediately and issues no command. -/
lemma exp_gate_true (expr : List Char) (env : GaEnvDims) (gx2D : List Char)
    (chunks : List (List Nat))
    (hg : ((env.xfixed || env.yfixed) || !(env.rank == 2)) = true) :
    exp expr env gx2D chunks = (.unsupportedShape, []) := by
  simp [exp, hg]

/-- When the gate does not fire, no branch of `exp` yields the
unsupported-shape outcome. -/
lemma exp_gate_false (expr : List Char) (env : GaEnvDims) (gx2D : List Char)
    (chunks : List (List Nat))
    (hg : ((env.xfixed || env.yfixed) || !(env.rank == 2)) = false) :
    (exp expr env gx2D chunks).1 ≠ ExpOutcome.unsupportedShape := by
  simp only [exp, hg, Bool.false_eq_true, if_false]
  cases hr : readRawUntilRCMarker chunks with
  | none => simp
  | some payload =>
    by_cases h4 : (payload.length % 4 == 0) = true
    · simp only [h4, if_true]
      cases hs : resolveShape env.nx env.ny ((payload.length / 4 : Nat) : Int) with
      | none => simp
      | some d =>
        rcases d with ⟨a, b⟩
        simp
    · simp only [Bool.not_eq_true] at h4
      simp [h4]

/-- Claim C4 (confirmed): the snapshot's rank is the count of non-fixed
axes among x, y, z, t, e, and `exp` fails with the unsupported-shape
condition exactly when the x axis is fixed, the y axis is fixed, or the
rank differs from 2; in that case no mode-switch or display command is
written (the trace of commands issued after the gate is empty). -/
theorem c4_rank_gate (expr : List Char) (env : GaEnvDims) (gx2D : List Char)
    (chunks : List (List Nat)) :
    env.rank = ([env.xfixed, env.yfixed, env.zfixed, env.tfixed,
        env.efixed]).countP (fun d => !d) ∧
      ((exp expr env gx2D chunks).1 = ExpOutcome.unsupportedShape ↔
        (env.xfixed = true ∨ env.yfixed = true ∨ env.rank ≠ 2)) ∧
      ((exp expr env gx2D chunks).1 = ExpOutcome.unsupportedShape →
        (exp expr env gx2D chunks).2 = []) := by
  have hgate := exp_gate_iff env
  by_cases hg : ((env.xfixed || env.yfixed) || !(env.rank == 2)) = true
  · have he := exp_gate_true expr env gx2D chunks hg
    refine ⟨sum_map_not_eq_countP _, ?_, ?_⟩
    · rw [he]
      simp only [true_iff]
      exact hgate.mp hg
    · intro _
      rw [he]
  · have hg2 : ((env.xfixed || env.yfixed) || !(env.rank == 2)) = false :=
      Bool.not_eq_true _ ▸ Bool.eq_false_iff.mpr hg
    have hne := exp_gate_false expr env gx2D chunks hg2
    refine ⟨sum_map_not_eq_countP _, ?_, ?_⟩
    · constructor
      · intro h
        exact absurd h hne
      · intro h
        exact absurd (hgate.mpr h) hg
    · intro h
      exact absurd h hne

/-- The ctlinfo scan distributes over list append. -/
lemma ctlScan_append (as bs : List (List Char)) (st : CtlEnv) :
    ctlScan (as ++ bs) st = (ctlScan as st).bind (fun st2 => ctlScan bs st2) := by
  induction as generalizing st with
  | nil => simp [ctlScan]
  | cons a tl ih =>
    simp only [List.cons_append, ctlScan]
    cases ctlStep st a <;> simp [ih]

/-- A ctlinfo line whose text contains neither `'xdef '` nor `'XDEF '`
leaves the stored x length unchanged. -/
lemma ctlStep_preserves_nx (st : CtlEnv) (l : List Char) (st2 : CtlEnv)
    (hx1 : containsSeq xdefLower l = false) (hx2 : containsSeq xdefUpper l = false)
    (h : ctlStep st l = some st2) : st2.bigNx = st.bigNx := by
  simp only [ctlStep, hx1, hx2, Bool.or_self, Bool.false_eq_true, if_false] at h
  split at h
  · rcases Option.map_eq_some'.mp h with ⟨n, _, rfl⟩
    rfl
  · split at h
    · rcases Option.map_eq_some'.mp h with ⟨n, _, rfl⟩
      rfl
    · split at h
      · rcases Option.map_eq_some'.mp h with ⟨n, _, rfl⟩
        rfl
      · split at h
        · rcases Option.map_eq_some'.mp h with ⟨n, _, rfl⟩
          rfl
        · rcases Option.some_inj.mp h with rfl
          rfl

/-- A ctlinfo line whose text contains neither `'edef '` nor `'EDEF '`
leaves the stored total ensemble length unchanged. -/
lemma ctlStep_preserves_ne (st : CtlEnv) (l : List Char) (st2 : CtlEnv)
    (he1 : containsSeq edefLower l = false) (he2 : containsSeq edefUpper l = false)
    (h : ctlStep st l = some st2) : st2.bigNe = st.bigNe := by
  simp only [ctlStep, he1, he2, Bool.or_self, Bool.false_eq_true, if_false] at h
  split at h
  · rcases Option.map_eq_some'.mp h with ⟨n, _, rfl⟩
    rfl
  · split at h
    · rcases Option.map_eq_some'.mp h with ⟨n, _, rfl⟩
      rfl
    · split at h
      · rcases Option.map_eq_some'.mp h with ⟨n, _, rfl⟩
        rfl
      · split at h
        · rcases Option.map_eq_some'.mp h with ⟨n, _, rfl⟩
          rfl
        · rcases Option.some_inj.mp h with rfl
          rfl

/-- A ctlinfo line whose text contains neither `'ydef '` nor `'YDEF '`
leaves the stored y length unchanged. -/
lemma ctlStep_preserves_ny (st : CtlEnv) (l : List Char) (st2 : CtlEnv)
    (hy1 : containsSeq ydefLower l = false) (hy2 : containsSeq ydefUpper l = false)
    (h : ctlStep st l = some st2) : st2.bigNy = st.bigNy := by
  unfold ctlStep at h
  split at h
  · rcases Option.map_eq_some'.mp h with ⟨n, _, rfl⟩
    rfl
  · simp only [hy1, hy2, Bool.or_self, Bool.false_eq_true, if_false] at h
    split at h
    · rcases Option.map_eq_some'.mp h with ⟨n, _, rfl⟩
      rfl
    · split at h
      · rcases Option.map_eq_some'.mp h with ⟨n, _, rfl⟩
        rfl
      · split at h
        · rcases Option.map_eq_some'.mp h with ⟨n, _, rfl⟩
          rfl
        · rcases Option.some_inj.mp h with rfl
          rfl

/-- A ctlinfo line whose text contains neither `'zdef '` nor `'ZDEF '`
leaves the stored z length unchanged. -/
lemma ctlStep_preserves_nz (st : CtlEnv) (l : List Char) (st2 : CtlEnv)
    (hz1 : containsSeq zdefLower l = false) (hz2 : containsSeq zdefUpper l = false)
    (h : ctlStep st l = some st2) : st2.bigNz = st.bigNz := by
  unfold ctlStep at h
  split at h
  · rcases Option.map_eq_some'.mp h with ⟨n, _, rfl⟩
    rfl
  · split at h
    · rcases Option.map_eq_some'.mp h with ⟨n, _, rfl⟩
      rfl
    · simp only [hz1, hz2, Bool.or_self, Bool.false_eq_true, if_false] at h
      split at h
      · rcases Option.map_eq_some'.mp h with ⟨n, _, rfl⟩
        rfl
      · split at h
        · rcases Option.map_eq_some'.mp h with ⟨n, _, rfl⟩
          rfl
        · rcases Option.some_inj.mp h with rfl
          rfl

/-- A ctlinfo line whose text contains neither `'tdef '` nor `'TDEF '`
leaves the stored t length unchanged. -/
lemma ctlStep_preserves_nt (st : CtlEnv) (l : List Char) (st2 : CtlEnv)
    (ht1 : containsSeq tdefLower l = false) (ht2 : containsSeq tdefUpper l = false)
    (h : ctlStep st l = some st2) : st2.bigNt = st.bigNt := by
  unfold ctlStep at h
  split at h
  · rcases Option.map_eq_some'.mp h with ⟨n, _, rfl⟩
    rfl
  · split at h
    · rcases Option.map_eq_some'.mp h with ⟨n, _, rfl⟩
      rfl
    · split at h
      · rcases Option.map_eq_some'.mp h with ⟨n, _, rfl⟩
        rfl
      · simp only [ht1, ht2, Bool.or_self, Bool.false_eq_true, if_false] at h
        split at h
        · rcases Option.map_eq_some'.mp h with ⟨n, _, rfl⟩
          rfl
        · rcases Option.some_inj.mp h with rfl
          rfl

/-- Scan-level version of `ctlStep_preserves_ne`. -/
lemma ctlScan_preserves_ne (ls : List (List Char)) (st env : CtlEnv)
    (he : ∀ l ∈ ls, containsSeq edefLower l = false ∧ containsSeq edefUpper l = false)
    (h : ctlScan ls st = some env) : env.bigNe = st.bigNe := by
  induction ls generalizing st with
  | nil =>
    rcases Option.some_inj.mp h with rfl
    rfl
  | cons a tl ih =>
    simp only [ctlScan] at h
    rcases Option.bind_eq_some.mp h with ⟨st2, hs1, hs2⟩
    have h1 := ctlStep_preserves_ne st a st2 (he a (by simp)).1 (he a (by simp)).2 hs1
    have h2 := ih st2 (fun l hl => he l (by simp [hl])) hs2
    rw [h2, h1]

/-- Selector for the five axis-definition keywords of the ctlinfo scan, in
the order of the source's `elif` chain. -/
inductive CtlAxisKey where
  | kx
  | ky
  | kz
  | kt
  | ke
deriving DecidableEq

/-- The all-lowercase keyword tested for each axis. -/
def ctlLower : CtlAxisKey → List Char
  | .kx => xdefLower
  | .ky => ydefLower
  | .kz => zdefLower
  | .kt => tdefLower
  | .ke => edefLower

/-- The all-uppercase keyword tested for each axis. -/
def ctlUpper : CtlAxisKey → List Char
  | .kx => xdefUpper
  | .ky => ydefUpper
  | .kz => zdefUpper
  | .kt => tdefUpper
  | .ke => edefUpper

/-- The axes whose branches precede the given axis's branch in the
source's `elif` chain (an earlier branch captures a line even when the
line also contains a later keyword). -/
def ctlPrevKeys : CtlAxisKey → List CtlAxisKey
  | .kx => []
  | .ky => [.kx]
  | .kz => [.kx, .ky]
  | .kt => [.kx, .ky, .kz]
  | .ke => [.kx, .ky, .kz, .kt]

/-- The stored total declared length for each axis (`Ne` is always set,
so it is wrapped in `some`). -/
def CtlEnv.axisTotal : CtlAxisKey → CtlEnv → Option Int
  | .kx, st => st.bigNx
  | .ky, st => st.bigNy
  | .kz, st => st.bigNz
  | .kt, st => st.bigNt
  | .ke, st => some st.bigNe

/-- The state update performed by the branch of axis `k`. -/
def setCtlAxis : CtlAxisKey → CtlEnv → Int → CtlEnv
  | .kx, st, n => { st with bigNx := some n }
  | .ky, st, n => { st with bigNy := some n }
  | .kz, st, n => { st with bigNz := some n }
  | .kt, st, n => { st with bigNt := some n }
  | .ke, st, n => { st with bigNe := n }

/-- A ctlinfo line containing neither spelling of axis `k`'s keyword
leaves that axis's stored total length unchanged. -/
lemma ctlStep_preserves_axis (k : CtlAxisKey) (st : CtlEnv) (l : List Char)
    (st2 : CtlEnv) (h1 : containsSeq (ctlLower k) l = false)
    (h2 : containsSeq (ctlUpper k) l = false) (h : ctlStep st l = some st2) :
    CtlEnv.axisTotal k st2 = CtlEnv.axisTotal k st := by
  cases k with
  | kx => exact ctlStep_preserves_nx st l st2 h1 h2 h
  | ky => exact ctlStep_preserves_ny st l st2 h1 h2 h
  | kz => exact ctlStep_preserves_nz st l st2 h1 h2 h
  | kt => exact ctlStep_preserves_nt st l st2 h1 h2 h
  | ke => exact congrArg some (ctlStep_preserves_ne st l st2 h1 h2 h)

/-- Scan-level version of `ctlStep_preserves_axis`. -/
lemma ctlScan_preserves_axis (k : CtlAxisKey) (ls : List (List Char))
    (st env : CtlEnv)
    (hk : ∀ x ∈ ls, containsSeq (ctlLower k) x = false ∧
      containsSeq (ctlUpper k) x = false)
    (h : ctlScan ls st = some env) :
    CtlEnv.axisTotal k env = CtlEnv.axisTotal k st := by
  induction ls generalizing st with
  | nil =>
    rcases Option.some_inj.mp h with rfl
    rfl
  | cons a tl ih =>
    simp only [ctlScan] at h
    rcases Option.bind_eq_some.mp h with ⟨st2, hs1, hs2⟩
    rw [ih st2 (fun x hx => hk x (by simp [hx])) hs2,
      ctlStep_preserves_axis k st a st2 (hk a (by simp)).1 (hk a (by simp)).2 hs1]

/-- A line containing axis `k`'s keyword (in either recognized spelling)
and no earlier axis's keyword fires exactly `k`'s branch, storing the
parsed second word. -/
lemma ctlStep_fires (k : CtlAxisKey) (st : CtlEnv) (l : List Char) (n : Int)
    (hl : containsSeq (ctlLower k) l = true ∨ containsSeq (ctlUpper k) l = true)
    (hprev : ∀ j ∈ ctlPrevKeys k, containsSeq (ctlLower j) l = false ∧
      containsSeq (ctlUpper j) l = false)
    (htok : ((splitWs l).get? 1).bind parseInt = some n) :
    ctlStep st l = some (setCtlAxis k st n) := by
  cases k with
  | kx =>
    simp only [ctlLower, ctlUpper] at hl
    have hcond : (containsSeq xdefLower l || containsSeq xdefUpper l) = true := by
      rcases hl with h1 | h1 <;> simp [h1]
    simp only [ctlStep, hcond, if_true, htok, Option.map_some', setCtlAxis]
  | ky =>
    obtain ⟨hx1, hx2⟩ := hprev .kx (by decide)
    simp only [ctlLower, ctlUpper] at hl hx1 hx2
    have hcond : (containsSeq ydefLower l || containsSeq ydefUpper l) = true := by
      rcases hl with h1 | h1 <;> simp [h1]
    simp only [ctlStep, hx1, hx2, Bool.or_self, Bool.false_eq_true, if_false,
      hcond, if_true, htok, Option.map_some', setCtlAxis]
  | kz =>
    obtain ⟨hx1, hx2⟩ := hprev .kx (by decide)
    obtain ⟨hy1, hy2⟩ := hprev .ky (by decide)
    simp only [ctlLower, ctlUpper] at hl hx1 hx2 hy1 hy2
    have hcond : (containsSeq zdefLower l || containsSeq zdefUpper l) = true := by
      rcases hl with h1 | h1 <;> simp [h1]
    simp only [ctlStep, hx1, hx2, hy1, hy2, Bool.or_self, Bool.false_eq_true,
      if_false, hcond, if_true, htok, Option.map_some', setCtlAxis]
  | kt =>
    obtain ⟨hx1, hx2⟩ := hprev .kx (by decide)
    obtain ⟨hy1, hy2⟩ := hprev .ky (by decide)
    obtain ⟨hz1, hz2⟩ := hprev .kz (by decide)
    simp only [ctlLower, ctlUpper] at hl hx1 hx2 hy1 hy2 hz1 hz2
    have hcond : (containsSeq tdefLower l || containsSeq tdefUpper l) = true := by
      rcases hl with h1 | h1 <;> simp [h1]
    simp only [ctlStep, hx1, hx2, hy1, hy2, hz1, hz2, Bool.or_self,
      Bool.false_eq_true, if_false, hcond, if_true, htok, Option.map_some',
      setCtlAxis]
  | ke =>
    obtain ⟨hx1, hx2⟩ := hprev .kx (by decide)
    obtain ⟨hy1, hy2⟩ := hprev .ky (by decide)
    obtain ⟨hz1, hz2⟩ := hprev .kz (by decide)
    obtain ⟨ht1, ht2⟩ := hprev .kt (by decide)
    simp only [ctlLower, ctlUpper] at hl hx1 hx2 hy1 hy2 hz1 hz2 ht1 ht2
    have hcond : (containsSeq edefLower l || containsSeq edefUpper l) = true := by
      rcases hl with h1 | h1 <;> simp [h1]
    simp only [ctlStep, hx1, hx2, hy1, hy2, hz1, hz2, ht1, ht2, Bool.or_self,
      Bool.false_eq_true, if_false, hcond, if_true, htok, Option.map_some',
      setCtlAxis]

/-- Claim C8 (corrected): for each of the five axes x, y, z, t, e, a
ctlinfo line sets that axis's total declared length when it contains the
axis keyword in all-lowercase form (`'xdef '`, `'ydef '`, `'zdef '`,
`'tdef '`, `'edef '`) or all-uppercase form (`'XDEF '`, ..., `'EDEF '`),
each with a trailing space — these are the only recognized spellings, not
every letter-case variant — the stored length being the parsed second
whitespace-separated word of the last such line; and the total ensemble
length defaults to 1 when no line contains `'edef '` or `'EDEF '`. -/
theorem c8_ctl_keywords (k : CtlAxisKey) (pre : List (List Char)) (l : List Char)
    (post : List (List Char)) (env : CtlEnv) (n : Int)
    (hl : containsSeq (ctlLower k) l = true ∨ containsSeq (ctlUpper k) l = true)
    (hprev : ∀ j ∈ ctlPrevKeys k, containsSeq (ctlLower j) l = false ∧
      containsSeq (ctlUpper j) l = false)
    (htok : ((splitWs l).get? 1).bind parseInt = some n)
    (hpost : ∀ x ∈ post, containsSeq (ctlLower k) x = false ∧
      containsSeq (ctlUpper k) x = false)
    (h : parseCtl (pre ++ l :: post) = some env) :
    CtlEnv.axisTotal k env = some n ∧
      ((∀ x ∈ pre ++ l :: post,
          containsSeq edefLower x = false ∧ containsSeq edefUpper x = false) →
        env.bigNe = 1) := by
  constructor
  · unfold parseCtl at h
    rw [ctlScan_append] at h
    rcases Option.bind_eq_some.mp h with ⟨st, _, hs2⟩
    simp only [ctlScan] at hs2
    rcases Option.bind_eq_some.mp hs2 with ⟨st2, hstep, hrest⟩
    rw [ctlStep_fires k st l n hl hprev htok] at hstep
    rcases Option.some_inj.mp hstep with rfl
    rw [ctlScan_preserves_axis k post (setCtlAxis k st n) env hpost hrest]
    cases k <;> rfl
  · intro he
    exact ctlScan_preserves_ne (pre ++ l :: post) _ env he h

/-- Witness for C8 (amended form): in a concrete ctlinfo response the
`ydef` line sets the y axis total length to its second word, and with no
ensemble-definition line the total ensemble length stays 1. -/
theorem c8_witness :
    CtlEnv.axisTotal CtlAxisKey.ky
        (CtlEnv.mk (some 100) (some 50) (some 20) none 1) = some 50 ∧
      ((∀ x ∈ ["xdef 100 linear 0 1".toList] ++ "ydef 50 linear 0 1".toList ::
          ["zdef 20 levels".toList],
          containsSeq edefLower x = false ∧ containsSeq edefUpper x = false) →
        (CtlEnv.mk (some 100) (some 50) (some 20) none 1).bigNe = 1) :=
  c8_ctl_keywords CtlAxisKey.ky ["xdef 100 linear 0 1".toList]
    ("ydef 50 linear 0 1".toList) ["zdef 20 levels".toList]
    (CtlEnv.mk (some 100) (some 50) (some 20) none 1) 50
    (by decide) (by decide) (by decide) (by decide) (by decide)

/-- Counterexample for C8 as stated: the mixed-case variant `'Xdef'` is a
letter-case variant of the keyword, yet the scan does not recognize it —
the x length stays unset — while the all-lowercase spelling does set it. -/
theorem c8_mixed_case_not_matched :
    parseCtl ["Xdef 10 linear".toList] = some (CtlEnv.mk none none none none 1) ∧
      parseCtl ["xdef 10 linear".toList] =
        some (CtlEnv.mk (some 10) none none none 1) := by decide

/-- Claim C7 (corrected): whenever the display-mode query parses, each of
the four plot-category tokens (last word of response lines 1-4) was mapped
through the fixed `graphicTypes` table — so an unknown token there fails
the query rather than being defaulted — and the sentinel token `'0'` maps
to "no mode set" (`none`); the fifth, station-data token is not mapped
through the table: the sentinel `'6'` yields "no mode set" and any other
token is stored verbatim. -/
theorem c7_gxout_modes (qgxout : List (List Char)) (env : GxoutEnv)
    (h : parseGxout qgxout = some env) :
    (∃ t1, ((qgxout.get? 1).bind (fun l => (splitWs l).getLast?)) = some t1 ∧
        lookupGraphicType t1 = some env.gx1Dscalar) ∧
      (∃ t2, ((qgxout.get? 2).bind (fun l => (splitWs l).getLast?)) = some t2 ∧
        lookupGraphicType t2 = some env.gx1Dvector) ∧
      (∃ t3, ((qgxout.get? 3).bind (fun l => (splitWs l).getLast?)) = some t3 ∧
        lookupGraphicType t3 = some env.gx2Dscalar) ∧
      (∃ t4, ((qgxout.get? 4).bind (fun l => (splitWs l).getLast?)) = some t4 ∧
        lookupGraphicType t4 = some env.gx2Dvector) ∧
      (∃ t5, ((qgxout.get? 5).bind (fun l => (splitWs l).getLast?)) = some t5 ∧
        env.stationData = (if t5 = "6".toList then none else some t5)) ∧
      lookupGraphicType ("0".toList) = some none := by
  unfold parseGxout at h
  rcases Option.bind_eq_some.mp h with ⟨t1, ht1, h⟩
  rcases Option.bind_eq_some.mp h with ⟨g1, hg1, h⟩
  rcases Option.bind_eq_some.mp h with ⟨t2, ht2, h⟩
  rcases Option.bind_eq_some.mp h with ⟨g2, hg2, h⟩
  rcases Option.bind_eq_some.mp h with ⟨t3, ht3, h⟩
  rcases Option.bind_eq_some.mp h with ⟨g3, hg3, h⟩
  rcases Option.bind_eq_some.mp h with ⟨t4, ht4, h⟩
  rcases Option.bind_eq_some.mp h with ⟨g4, hg4, h⟩
  rcases Option.map_eq_some'.mp h with ⟨t5, ht5, rfl⟩
  exact ⟨⟨t1, ht1, hg1⟩, ⟨t2, ht2, hg2⟩, ⟨t3, ht3, hg3⟩, ⟨t4, ht4, hg4⟩,
    ⟨t5, ht5, rfl⟩, rfl⟩

/-- Witness for C7 (amended form) on a concrete gxout response with the
station-data sentinel `'6'`. -/
theorem c7_witness :
    (∃ t1, ((["noise".toList, "a Contour".toList, "b Vector".toList,
        "c Shaded".toList, "d Vector".toList, "e 6".toList].get? 1).bind
          (fun l => (splitWs l).getLast?)) = some t1 ∧
        lookupGraphicType t1 =
          some (GxoutEnv.mk (some ("contour".toList)) (some ("vector".toList))
            (some ("shade1".toList)) (some ("vector".toList)) none).gx1Dscalar) ∧
      (∃ t2, ((["noise".toList, "a Contour".toList, "b Vector".toList,
        "c Shaded".toList, "d Vector".toList, "e 6".toList].get? 2).bind
          (fun l => (splitWs l).getLast?)) = some t2 ∧
        lookupGraphicType t2 =
          some (GxoutEnv.mk (some ("contour".toList)) (some ("vector".toList))
            (some ("shade1".toList)) (some ("vector".toList)) none).gx1Dvector) ∧
      (∃ t3, ((["noise".toList, "a Contour".toList, "b Vector".toList,
        "c Shaded".toList, "d Vector".toList, "e 6".toList].get? 3).bind
          (fun l => (splitWs l).getLast?)) = some t3 ∧
        lookupGraphicType t3 =
          some (GxoutEnv.mk (some ("contour".toList)) (some ("vector".toList))
            (some ("shade1".toList)) (some ("vector".toList)) none).gx2Dscalar) ∧
      (∃ t4, ((["noise".toList, "a Contour".toList, "b Vector".toList,
        "c Shaded".toList, "d Vector".toList, "e 6".toList].get? 4).bind
          (fun l => (splitWs l).getLast?)) = some t4 ∧
        lookupGraphicType t4 =
          some (GxoutEnv.mk (some ("contour".toList)) (some ("vector".toList))
            (some ("shade1".toList)) (some ("vector".toList)) none).gx2Dvector) ∧
      (∃ t5, ((["noise".toList, "a Contour".toList, "b Vector".toList,
        "c Shaded".toList, "d Vector".toList, "e 6".toList].get? 5).bind
          (fun l => (splitWs l).getLast?)) = some t5 ∧
        (GxoutEnv.mk (some ("contour".toList)) (some ("vector".toList))
          (some ("shade1".toList)) (some ("vector".toList)) none).stationData =
          (if t5 = "6".toList then none else some t5)) ∧
      lookupGraphicType ("0".toList) = some none :=
  c7_gxout_modes ["noise".toList, "a Contour".toList, "b Vector".toList,
      "c Shaded".toList, "d Vector".toList, "e 6".toList]
    (GxoutEnv.mk (some ("contour".toList)) (some ("vector".toList))
      (some ("shade1".toList)) (some ("vector".toList)) none) (by decide)

/-- Counterexample for C7 as stated: the station-data token `'Bogus'` is
absent from the `graphicTypes` table (second conjunct), yet the query
succeeds and stores the token verbatim instead of failing — the fifth
mode token is not mapped through the table. -/
theorem c7_station_token_not_mapped :
    parseGxout ["noise".toList, "a Contour".toList, "b Vector".toList,
        "c Shaded".toList, "d Vector".toList, "e Bogus".toList] =
      some (GxoutEnv.mk (some ("contour".toList)) (some ("vector".toList))
        (some ("shade1".toList)) (some ("vector".toList)) (some ("Bogus".toList))) ∧
      lookupGraphicType ("Bogus".toList) = none := by decide

/-- `findFrameStart` discards every line before the first one containing
the opening tag, and consumes that line as well. -/
lemma findFrameStart_skip (noise : List (List Char)) (l : List Char)
    (rest : List (List Char))
    (hn : ∀ x ∈ noise, containsSeq markstart x = false)
    (hl : containsSeq markstart l = true) :
    findFrameStart (noise ++ l :: rest) = some rest := by
  induction noise with
  | nil => simp [findFrameStart, hl]
  | cons hd tl ih =>
    have hhd : containsSeq markstart hd = false := hn hd (by simp)
    simp [findFrameStart, hhd, ih (fun x hx => hn x (by simp [hx]))]

/-- Claim C2 (confirmed): a well-formed frame `<IPC> L1 L2 <RC> n </IPC>`
parses to exactly `([L1, L2], n)` — lines before the opening tag are
discarded, the `<RC>` line contributes only its parsed second word as the
return code and is not collected, the collected lines lose their trailing
line terminator and keep their order; and without any `<RC>` line before
the closing tag the return code is the sentinel -1. -/
theorem c2_text_frame (noise : List (List Char))
    (openL L1 L2 rcLine closeL : List Char) (n : Int) (rest : List (List Char))
    (hnoise : ∀ x ∈ noise, containsSeq markstart x = false)
    (hopen : containsSeq markstart openL = true)
    (h1e : containsSeq markend (L1 ++ ['\n']) = false)
    (h1r : containsSeq rcTag (L1 ++ ['\n']) = false)
    (h2e : containsSeq markend (L2 ++ ['\n']) = false)
    (h2r : containsSeq rcTag (L2 ++ ['\n']) = false)
    (hre : containsSeq markend rcLine = false)
    (hrr : containsSeq rcTag rcLine = true)
    (htok : ((splitWs rcLine).get? 1).bind parseInt = some n)
    (hclose : containsSeq markend closeL = true) :
    parse_output (noise ++ openL :: (L1 ++ ['\n']) :: (L2 ++ ['\n']) ::
        rcLine :: closeL :: rest) = some ([L1, L2], n) ∧
      parse_output (noise ++ openL :: (L1 ++ ['\n']) :: (L2 ++ ['\n']) ::
        closeL :: rest) = some ([L1, L2], -1) := by
  have htok2 : ((splitWs rcLine)[1]?).bind parseInt = some n := by
    rw [← List.get?_eq_getElem?]
    exact htok
  constructor <;>
    simp [parse_output, findFrameStart_skip noise openL _ hnoise hopen,
      collectFrame, h1e, h1r, h2e, h2r, hre, hrr, htok2, hclose,
      List.dropLast_concat]

/-- Witness for C2 on a concrete stream: banner noise, frame `ab` `cd`
with return code 7, and the same frame without a return-code line. -/
theorem c2_witness :
    parse_output (["banner noise".toList] ++ "<IPC>\n".toList ::
        ("ab".toList ++ ['\n']) :: ("cd".toList ++ ['\n']) ::
        "<RC> 7\n".toList :: "</IPC>\n".toList :: ["tail".toList]) =
      some (["ab".toList, "cd".toList], 7) ∧
      parse_output (["banner noise".toList] ++ "<IPC>\n".toList ::
        ("ab".toList ++ ['\n']) :: ("cd".toList ++ ['\n']) ::
        "</IPC>\n".toList :: ["tail".toList]) =
      some (["ab".toList, "cd".toList], -1) :=
  c2_text_frame ["banner noise".toList] ("<IPC>\n".toList) ("ab".toList)
    ("cd".toList) ("<RC> 7\n".toList) ("</IPC>\n".toList) 7 ["tail".toList]
    (by decide) (by decide) (by decide) (by decide) (by decide) (by decide)
    (by decide) (by decide) (by decide) (by decide)

/-- Invariant guaranteed by every axis parser: a varying axis stores the
floor of its low and the ceiling of its high grid coordinate. -/
def axisWellFormed : AxisDim → Prop
  | .fixed _ _ => True
  | .varying lo hi li hj => li = Int.floor lo ∧ hj = Int.ceil hi

/-- `parseAxisWorld` only builds well-formed axes. -/
lemma parseAxisWorld_wf (l : List Char) (a : AxisDim)
    (h : parseAxisWorld l = some a) : axisWellFormed a := by
  unfold parseAxisWorld at h
  split at h
  · rcases Option.bind_eq_some.mp h with ⟨w, _, h⟩
    rcases Option.map_eq_some'.mp h with ⟨c, _, rfl⟩
    trivial
  · rcases Option.bind_eq_some.mp h with ⟨w5, _, h⟩
    rcases Option.bind_eq_some.mp h with ⟨w7, _, h⟩
    rcases Option.bind_eq_some.mp h with ⟨lo, _, h⟩
    rcases Option.map_eq_some'.mp h with ⟨hi, _, rfl⟩
    exact ⟨rfl, rfl⟩

/-- `parseAxisTime` only builds well-formed axes. -/
lemma parseAxisTime_wf (l : List Char) (a : AxisDim)
    (h : parseAxisTime l = some a) : axisWellFormed a := by
  unfold parseAxisTime at h
  split at h
  · rcases Option.bind_eq_some.mp h with ⟨w, _, h⟩
    rcases Option.map_eq_some'.mp h with ⟨c, _, rfl⟩
    trivial
  · rcases Option.bind_eq_some.mp h with ⟨w5, _, h⟩
    rcases Option.bind_eq_some.mp h with ⟨w7, _, h⟩
    rcases Option.bind_eq_some.mp h with ⟨lo, _, h⟩
    rcases Option.map_eq_some'.mp h with ⟨hi, _, rfl⟩
    exact ⟨rfl, rfl⟩

/-- `parseAxisEns` only builds well-formed axes. -/
lemma parseAxisEns_wf (l : List Char) (a : AxisDim)
    (h : parseAxisEns l = some a) : axisWellFormed a := by
  unfold parseAxisEns at h
  split at h
  · rcases Option.map_eq_some'.mp h with ⟨c, _, rfl⟩
    trivial
  · rcases Option.bind_eq_some.mp h with ⟨lo, _, h⟩
    rcases Option.map_eq_some'.mp h with ⟨hi, _, rfl⟩
    exact ⟨rfl, rfl⟩

/-- Claim C5 (corrected): in any parsed dimensions response, a fixed axis
has length 1 and a varying axis stores `lowIndex = floor(low)` and
`highIndex = ceil(high)` with length `highIndex - lowIndex + 1`; the
ordering `lowIndex ≤ highIndex` holds whenever the response's fractional
coordinates satisfy `low ≤ high` — not unconditionally. -/
theorem c5_axis_index_ranges (qdims : List (List Char)) (env : GaEnvDims)
    (a : AxisDim) (h : parseDims qdims = some env)
    (ha : a ∈ [env.x, env.y, env.z, env.t, env.e]) :
    (∀ c i, a = AxisDim.fixed c i → a.length = 1) ∧
      (∀ lo hi li hj, a = AxisDim.varying lo hi li hj →
        li = Int.floor lo ∧ hj = Int.ceil hi ∧ a.length = hj - li + 1 ∧
          (lo ≤ hi → li ≤ hj)) := by
  have hwf : axisWellFormed env.x ∧ axisWellFormed env.y ∧ axisWellFormed env.z ∧
      axisWellFormed env.t ∧ axisWellFormed env.e := by
    unfold parseDims at h
    rcases Option.bind_eq_some.mp h with ⟨l0, _, h⟩
    rcases Option.bind_eq_some.mp h with ⟨fid, _, h⟩
    rcases Option.bind_eq_some.mp h with ⟨ax, hax, h⟩
    rcases Option.bind_eq_some.mp h with ⟨ay, hay, h⟩
    rcases Option.bind_eq_some.mp h with ⟨az, haz, h⟩
    rcases Option.bind_eq_some.mp h with ⟨a4, ha4, h⟩
    rcases Option.map_eq_some'.mp h with ⟨a5, ha5, rfl⟩
    rcases Option.bind_eq_some.mp hax with ⟨lx, _, hax2⟩
    rcases Option.bind_eq_some.mp hay with ⟨ly, _, hay2⟩
    rcases Option.bind_eq_some.mp haz with ⟨lz, _, haz2⟩
    rcases Option.bind_eq_some.mp ha4 with ⟨lt, _, ha42⟩
    rcases Option.bind_eq_some.mp ha5 with ⟨le2, _, ha52⟩
    exact ⟨parseAxisWorld_wf lx ax hax2, parseAxisWorld_wf ly ay hay2,
      parseAxisWorld_wf lz az haz2, parseAxisTime_wf lt a4 ha42,
      parseAxisEns_wf le2 a5 ha52⟩
  have haw : axisWellFormed a := by
    simp only [List.mem_cons, List.not_mem_nil, or_false] at ha
    rcases ha with rfl | rfl | rfl | rfl | rfl
    · exact hwf.1
    · exact hwf.2.1
    · exact hwf.2.2.1
    · exact hwf.2.2.2.1
    · exact hwf.2.2.2.2
  constructor
  · intro c i hfix
    subst hfix
    rfl
  · intro lo hi li hj hvar
    subst hvar
    simp only [axisWellFormed] at haw
    obtain ⟨hl, hh⟩ := haw
    subst hl
    subst hh
    refine ⟨rfl, rfl, rfl, ?_⟩
    intro hle
    exact le_trans (Int.floor_mono hle) (Int.floor_le_ceil hi)

/-- A concrete healthy `query dims` response for the C5 witness. -/
def c5Qdims : List (List Char) :=
  ["Default file number is: 1".toList,
   "X is varying   Lon = 1 to 2   X = 1 to 2".toList,
   "Y is varying   Lat = 1 to 2   Y = 1 to 2".toList,
   "Z is fixed     Lev = 500  Z = 1".toList,
   "T is fixed     Time = 00Z01JAN2000  T = 1".toList,
   "E is fixed     Ens = 1  E = 1".toList]

/-- The snapshot parsed from `c5Qdims`. -/
def c5Env : GaEnvDims :=
  ⟨1, AxisDim.varying 1 2 1 2, AxisDim.varying 1 2 1 2,
    AxisDim.fixed 1 1, AxisDim.fixed 1 1, AxisDim.fixed 1 1⟩

/-- Witness for C5 (amended form) at the varying x axis of `c5Qdims`. -/
theorem c5_witness :
    (∀ c i, AxisDim.varying (1 : ℚ) 2 1 2 = AxisDim.fixed c i →
        (AxisDim.varying (1 : ℚ) 2 1 2).length = 1) ∧
      (∀ lo hi li hj,
        AxisDim.varying (1 : ℚ) 2 1 2 = AxisDim.varying lo hi li hj →
        li = Int.floor lo ∧ hj = Int.ceil hi ∧
          (AxisDim.varying (1 : ℚ) 2 1 2).length = hj - li + 1 ∧
          (lo ≤ hi → li ≤ hj)) :=
  c5_axis_index_ranges c5Qdims c5Env (AxisDim.varying (1 : ℚ) 2 1 2)
    (by decide) (by decide)

/-- A `query dims` response whose varying x axis runs from 2 down to 0. -/
def c5CexQdims : List (List Char) :=
  ["Default file number is: 1".toList,
   "X is varying   Lon = 1 to 2   X = 2 to 0".toList,
   "Y is varying   Lat = 1 to 2   Y = 1 to 2".toList,
   "Z is fixed     Lev = 500  Z = 1".toList,
   "T is fixed     Time = 00Z01JAN2000  T = 1".toList,
   "E is fixed     Ens = 1  E = 1".toList]

/-- Counterexample for C5 as stated: this response parses, its varying x
axis derives `lowIndex = 2` and `highIndex = 0`, and `2 ≤ 0` is false — so
`lowIndex ≤ highIndex` does not hold for every parsed response, only for
responses whose fractional range is ordered. -/
theorem c5_low_index_above_high :
    (parseDims c5CexQdims).map GaEnvDims.x =
        some (AxisDim.varying (2 : ℚ) 0 2 0) ∧
      ¬ ((2 : Int) ≤ 0) := by decide
